import Mathlib

/-!
Shallow embedding of the dashboard module `app/api/dashboard.py` of the
repository, together with the in-memory stores it reads, and proofs of the
specified properties of the aggregation, ranking, cache-statistics,
active-request accounting and privileged-reset operations.

Conventions of the embedding:
* Python dicts are embedded as association lists (`List (key × value)`) in
  insertion order; `dict.get(k, default)` becomes `lookup` + `getD`.
* Python ints are `Nat`/`Int`; the usage-percentage arithmetic (true division
  and `round(x, 2)`) is carried out in `ℚ`.
* `try/except` around `datetime.strptime` becomes an `Option`-returning parser.
* Mutation becomes explicit state passing; raising `HTTPException` becomes
  returning an error value alongside the (unchanged) state.
-/

set_option synthInstance.maxSize 512

/-- `digitVal c` is the numeric value of a decimal digit character. -/
def digitVal (c : Char) : Nat := c.toNat - 48

/-- One granularity of `settings.api_call_stats`: the dict
`{'total': {bucket_label: count}, 'by_endpoint': {api_key: {model: {bucket_label: count}}}}`.
The `by_endpoint` key may be absent from the dict (the dashboard code guards
with `if 'by_endpoint' in settings.api_call_stats['last_24h']`), hence `Option`. -/
structure GranularityStats where
  total : List (String × Nat)
  by_endpoint : Option (List (String × List (String × List (String × Nat))))
deriving DecidableEq

/-- `settings.api_call_stats`: the three granularities `minute`, `hourly`,
`last_24h`. -/
structure ApiCallStats where
  minute : GranularityStats
  hourly : GranularityStats
  last_24h : GranularityStats
deriving DecidableEq

/-- The per-key/per-model breakdown that the dashboard loop reads for one API
key: embeds
`settings.api_call_stats['last_24h']['by_endpoint'][api_key]` when
`'by_endpoint' in settings.api_call_stats['last_24h'] and api_key in ...`,
and the empty mapping otherwise (the guarded block is skipped). -/
def breakdownOf
    (be : Option (List (String × List (String × List (String × Nat)))))
    (api_key : String) : List (String × List (String × Nat)) :=
  match be with
  | none => []
  | some table => (table.lookup api_key).getD []

/-- `round(x, 2)`: rounding to two decimal places, carried out exactly on `ℚ`. -/
def round2 (q : ℚ) : ℚ := ((round (q * 100) : ℤ) : ℚ) / 100

/-- Line 105 of `dashboard.py`:
`usage_percent = (calls_24h / API_KEY_DAILY_LIMIT) * 100 if API_KEY_DAILY_LIMIT > 0 else 0`. -/
def usagePercentRaw (calls_24h : Nat) (daily_limit : ℤ) : ℚ :=
  if 0 < daily_limit then ((calls_24h : ℚ) / (daily_limit : ℚ)) * 100 else 0

/-- One element of the `api_key_stats` list built by `get_dashboard_data`:
`{'api_key': ..., 'calls_24h': ..., 'limit': ..., 'usage_percent': ..., 'model_stats': ...}`. -/
structure KeyUsageRecord where
  api_key : String
  calls_24h : Nat
  limit : ℤ
  usage_percent : ℚ
  model_stats : List (String × Nat)
deriving DecidableEq

/-- The body of the per-key loop in `get_dashboard_data` (lines 90-115):
takes `api_key[:8]` as the identifier, walks the key's per-model breakdown
summing `model_data.values()` into `calls_24h` and recording
`model_stats[model] = model_calls`, computes the guarded usage percentage and
rounds it to two decimals. -/
def keyStat (daily_limit : ℤ)
    (be : Option (List (String × List (String × List (String × Nat)))))
    (api_key : String) : KeyUsageRecord :=
  let model_stats := (breakdownOf be api_key).map
    (fun p => (p.1, (p.2.map Prod.snd).sum))
  let calls_24h := (model_stats.map Prod.snd).sum
  { api_key := api_key.take 8
    calls_24h := calls_24h
    limit := daily_limit
    usage_percent := round2 (usagePercentRaw calls_24h daily_limit)
    model_stats := model_stats }

/-- Insertion step of the stable descending sort
`api_key_stats.sort(key=lambda x: x['usage_percent'], reverse=True)`:
`r` is placed before the first element whose `usage_percent` it meets or
exceeds, so an element keeps its position relative to equal elements that
followed it in the input. -/
def insertDesc (r : KeyUsageRecord) : List KeyUsageRecord → List KeyUsageRecord
  | [] => [r]
  | x :: xs =>
    if x.usage_percent ≤ r.usage_percent then r :: x :: xs
    else x :: insertDesc r xs

/-- Stable sort by `usage_percent` descending (CPython `list.sort` with
`reverse=True` is stable: elements with equal keys keep their input order). -/
def sortByUsageDesc : List KeyUsageRecord → List KeyUsageRecord
  | [] => []
  | x :: xs => insertDesc x (sortByUsageDesc xs)

/-- The `api_key_stats` list returned by `get_dashboard_data`: one record per
enumerated API key, sorted by usage percentage descending. -/
def apiKeyStats (daily_limit : ℤ)
    (be : Option (List (String × List (String × List (String × Nat)))))
    (api_keys : List String) : List KeyUsageRecord :=
  sortByUsageDesc (api_keys.map (keyStat daily_limit be))

/-- An active task in `active_requests_manager.active_requests`: the dashboard
only observes `task.done()`, embedded as a boolean flag. -/
structure ActiveTask where
  done : Bool
deriving DecidableEq

/-- Lines 143-146 of `dashboard.py`:
`active_count = len(active_requests_manager.active_requests)`,
`active_done = sum(1 for task in ... if task.done())`,
`active_pending = active_count - active_done` (Python int arithmetic, so `ℤ`). -/
def activeCounts (active_requests : List (String × ActiveTask)) : ℤ × ℤ × ℤ :=
  let active_count : ℤ := active_requests.length
  let active_done : ℤ :=
    (active_requests.countP (fun t => t.2.done))
  (active_count, active_done, active_count - active_done)

/-- C2: For every key, usage_percent equals calls_24h / daily_limit * 100
when the configured daily limit is positive, and is defined as 0 whenever the
daily limit is <= 0; the computation is guarded and total, so it never
raises a division fault. -/
theorem usage_percent_guarded (calls_24h : Nat) (daily_limit : ℤ) :
    (0 < daily_limit →
      usagePercentRaw calls_24h daily_limit
        = ((calls_24h : ℚ) / (daily_limit : ℚ)) * 100)
    ∧ (daily_limit ≤ 0 → usagePercentRaw calls_24h daily_limit = 0) := by
  constructor
  · intro h
    simp [usagePercentRaw, h]
  · intro h
    simp [usagePercentRaw, not_lt.mpr h]

/-- Witness for C2 at concrete inputs: limit 100 with 5 calls gives 5%, and a
zero limit gives 0. -/
theorem usage_percent_guarded_witness :
    usagePercentRaw 5 100 = 5 ∧ usagePercentRaw 7 0 = 0 := by
  constructor
  · rw [(usage_percent_guarded 5 100).1 (by norm_num)]
    norm_num
  · exact (usage_percent_guarded 7 0).2 (by norm_num)

/-- C9: For every state of the active-request tracker, the counts reported by
the dashboard satisfy `active_pending = active_count - active_done`, all three
are non-negative, and `active_done` never exceeds `active_count`. -/
theorem active_counts_invariant (active_requests : List (String × ActiveTask)) :
    (activeCounts active_requests).2.2
        = (activeCounts active_requests).1 - (activeCounts active_requests).2.1
    ∧ 0 ≤ (activeCounts active_requests).1
    ∧ 0 ≤ (activeCounts active_requests).2.1
    ∧ 0 ≤ (activeCounts active_requests).2.2
    ∧ (activeCounts active_requests).2.1 ≤ (activeCounts active_requests).1 := by
  have hle : ((active_requests.countP (fun t => t.2.done) : ℤ))
      ≤ (active_requests.length : ℤ) := by
    exact_mod_cast List.countP_le_length (fun t : String × ActiveTask => t.2.done)
  refine ⟨rfl, ?_, ?_, ?_, ?_⟩
  · show (0 : ℤ) ≤ (active_requests.length : ℤ)
    positivity
  · show (0 : ℤ) ≤ ((active_requests.countP (fun t => t.2.done) : ℕ) : ℤ)
    positivity
  · show (0 : ℤ) ≤ (active_requests.length : ℤ)
      - ((active_requests.countP (fun t => t.2.done) : ℕ) : ℤ)
    linarith
  · exact hle

/-- Boolean predicate selecting the records with a given usage percentage;
used to state stability of the descending sort. -/
def sameUsage (q : ℚ) (r : KeyUsageRecord) : Bool := r.usage_percent = q

theorem mem_insertDesc {y r : KeyUsageRecord} :
    ∀ {l : List KeyUsageRecord}, y ∈ insertDesc r l → y = r ∨ y ∈ l
  | [], h => by simpa [insertDesc] using h
  | x :: xs, h => by
    by_cases hcmp : x.usage_percent ≤ r.usage_percent
    · rw [insertDesc, if_pos hcmp] at h
      simpa using h
    · rw [insertDesc, if_neg hcmp] at h
      rcases List.mem_cons.mp h with rfl | h
      · right; exact List.mem_cons_self _ _
      · rcases mem_insertDesc h with h | h
        · left; exact h
        · right; exact List.mem_cons_of_mem _ h

theorem sorted_insertDesc (r : KeyUsageRecord) :
    ∀ {l : List KeyUsageRecord},
      l.Pairwise (fun a b => b.usage_percent ≤ a.usage_percent) →
      (insertDesc r l).Pairwise (fun a b => b.usage_percent ≤ a.usage_percent)
  | [], _ => by simp [insertDesc]
  | x :: xs, h => by
    rcases List.pairwise_cons.mp h with ⟨hx, hxs⟩
    by_cases hcmp : x.usage_percent ≤ r.usage_percent
    · rw [insertDesc, if_pos hcmp]
      refine List.pairwise_cons.mpr ⟨?_, h⟩
      intro y hy
      rcases List.mem_cons.mp hy with rfl | hy
      · exact hcmp
      · exact le_trans (hx y hy) hcmp
    · rw [insertDesc, if_neg hcmp]
      refine List.pairwise_cons.mpr ⟨?_, sorted_insertDesc r hxs⟩
      intro y hy
      rcases mem_insertDesc hy with rfl | hy
      · exact le_of_lt (lt_of_not_le hcmp)
      · exact hx y hy

theorem filter_insertDesc (q : ℚ) (r : KeyUsageRecord) :
    ∀ l : List KeyUsageRecord,
      (insertDesc r l).filter (sameUsage q)
        = if r.usage_percent = q then r :: l.filter (sameUsage q)
          else l.filter (sameUsage q)
  | [] => by
    by_cases hr : r.usage_percent = q <;> simp [insertDesc, sameUsage, hr]
  | x :: xs => by
    by_cases hcmp : x.usage_percent ≤ r.usage_percent
    · rw [insertDesc, if_pos hcmp]
      by_cases hr : r.usage_percent = q <;>
        simp [sameUsage, hr, List.filter_cons]
    · rw [insertDesc, if_neg hcmp]
      have hgt : r.usage_percent < x.usage_percent := lt_of_not_le hcmp
      by_cases hr : r.usage_percent = q
      · have hxq : ¬ (x.usage_percent = q) := by
          intro hxq
          rw [hxq, ← hr] at hgt
          exact lt_irrefl _ hgt
        rw [if_pos hr, List.filter_cons, List.filter_cons]
        simp [sameUsage, hxq, filter_insertDesc q r xs, hr]
      · rw [if_neg hr, List.filter_cons, List.filter_cons]
        simp [sameUsage, filter_insertDesc q r xs, hr]

theorem filter_sortByUsageDesc (q : ℚ) :
    ∀ l : List KeyUsageRecord,
      (sortByUsageDesc l).filter (sameUsage q) = l.filter (sameUsage q)
  | [] => rfl
  | x :: xs => by
    rw [sortByUsageDesc, filter_insertDesc q x (sortByUsageDesc xs)]
    by_cases hx : x.usage_percent = q <;>
      simp [hx, List.filter_cons, filter_sortByUsageDesc q xs, sameUsage]

theorem sorted_sortByUsageDesc :
    ∀ l : List KeyUsageRecord,
      (sortByUsageDesc l).Pairwise (fun a b => b.usage_percent ≤ a.usage_percent)
  | [] => List.Pairwise.nil
  | x :: xs => sorted_insertDesc x (sorted_sortByUsageDesc xs)

theorem mem_sortByUsageDesc {y : KeyUsageRecord} :
    ∀ {l : List KeyUsageRecord}, y ∈ sortByUsageDesc l → y ∈ l
  | [], h => by simp [sortByUsageDesc] at h
  | x :: xs, h => by
    rcases mem_insertDesc h with rfl | h
    · exact List.mem_cons_self _ _
    · exact List.mem_cons_of_mem _ (mem_sortByUsageDesc h)

/-- C1: For every enumeration of API keys and every underlying stats state,
the per-key usage records produced by the dashboard aggregation are sorted by
`usage_percent` descending, and records with equal `usage_percent` retain the
input key-enumeration order (the per-percentage sublists of the output equal
those of the unsorted per-key record list), so the order is a deterministic
function of the underlying data. -/
theorem api_key_stats_sorted_stable (daily_limit : ℤ)
    (be : Option (List (String × List (String × List (String × Nat)))))
    (api_keys : List String) :
    (apiKeyStats daily_limit be api_keys).Pairwise
        (fun a b => b.usage_percent ≤ a.usage_percent)
    ∧ ∀ q : ℚ,
        (apiKeyStats daily_limit be api_keys).filter (sameUsage q)
          = (api_keys.map (keyStat daily_limit be)).filter (sameUsage q) := by
  exact ⟨sorted_sortByUsageDesc _, fun q => filter_sortByUsageDesc q _⟩

/-- C4: `calls_24h` is the sum over all models of the key's bucket counts and
`model_stats` maps each model of the breakdown to the sum of its bucket
counts; in the concrete scenario (daily limit 100, key "K" with 5 events
split as m1 = 3 and m2 = 2) the record has calls_24h = 5, usage_percent = 5.0
and model_stats = m1 3, m2 2. -/
theorem calls24h_is_model_sum (daily_limit : ℤ)
    (be : Option (List (String × List (String × List (String × Nat)))))
    (k : String) :
    ((keyStat daily_limit be k).calls_24h
        = ((breakdownOf be k).map (fun p => (p.2.map Prod.snd).sum)).sum
      ∧ (keyStat daily_limit be k).model_stats
        = (breakdownOf be k).map (fun p => (p.1, (p.2.map Prod.snd).sum)))
    ∧ ((keyStat 100 (some [("K", [("m1", [("b1", 2), ("b2", 1)]),
          ("m2", [("b3", 2)])])]) "K").calls_24h = 5
      ∧ (keyStat 100 (some [("K", [("m1", [("b1", 2), ("b2", 1)]),
          ("m2", [("b3", 2)])])]) "K").usage_percent = 5
      ∧ (keyStat 100 (some [("K", [("m1", [("b1", 2), ("b2", 1)]),
          ("m2", [("b3", 2)])])]) "K").model_stats = [("m1", 3), ("m2", 2)]) := by
  refine ⟨⟨?_, rfl⟩, by decide, ?_, by decide⟩
  · simp only [keyStat, List.map_map]
    rfl
  · show round2 (usagePercentRaw 5 100) = 5
    norm_num [round2, usagePercentRaw]


/-- C5 counterexample: with daily limit 100 and a 24-hour breakdown in which
key "K" lists model "m1" with an empty bucket map (summed call count 0), the
per-key loop still stores `model_stats["m1"] = 0`, so the zero-count model is
listed rather than omitted. -/
theorem zero_count_model_listed :
    (keyStat 100 (some [("K", [("m1", ([] : List (String × Nat)))])]) "K").model_stats
        = [("m1", 0)]
    ∧ ("m1", 0) ∈
        (keyStat 100 (some [("K", [("m1", ([] : List (String × Nat)))])]) "K").model_stats := by
  constructor <;> decide

/-- C5 (amended): a model identifier absent from the key's 24-hour breakdown
never appears in `model_stats`; every model present in the breakdown is
listed with its summed bucket count, even when that sum is zero. -/
theorem model_stats_mirrors_breakdown (daily_limit : ℤ)
    (be : Option (List (String × List (String × List (String × Nat)))))
    (k m : String) :
    ((keyStat daily_limit be k).model_stats.map Prod.fst
        = (breakdownOf be k).map Prod.fst)
    ∧ (∀ buckets, (m, buckets) ∈ breakdownOf be k →
        (m, (buckets.map Prod.snd).sum) ∈ (keyStat daily_limit be k).model_stats)
    ∧ (m ∉ (breakdownOf be k).map Prod.fst →
        m ∉ (keyStat daily_limit be k).model_stats.map Prod.fst) := by
  have hfst : (keyStat daily_limit be k).model_stats.map Prod.fst
      = (breakdownOf be k).map Prod.fst := by
    simp only [keyStat, List.map_map]
    rfl
  refine ⟨hfst, ?_, ?_⟩
  · intro buckets hmem
    show (m, (buckets.map Prod.snd).sum) ∈
      (breakdownOf be k).map (fun p => (p.1, (p.2.map Prod.snd).sum))
    exact List.mem_map_of_mem (fun p => (p.1, (p.2.map Prod.snd).sum)) hmem
  · intro hnot
    rw [hfst]
    exact hnot

/-- Witness for the amended C5: model "m1" with buckets summing to 3 is listed
in model_stats as ("m1", 3). -/
theorem model_stats_mirrors_breakdown_witness :
    ("m1", 3) ∈ (keyStat 100
      (some [("K", [("m1", [("b1", 2), ("b2", 1)])])]) "K").model_stats := by
  have h := (model_stats_mirrors_breakdown 100
      (some [("K", [("m1", [("b1", 2), ("b2", 1)])])]) "K" "m1").2.1
      [("b1", 2), ("b2", 1)] (by decide)
  simpa using h

theorem round2_den_and_close (q : ℚ) :
    (round2 q * 100).den = 1 ∧ |round2 q - q| ≤ 1 / 200 := by
  constructor
  · have h : round2 q * 100 = ((round (q * 100) : ℤ) : ℚ) := by
      rw [round2]
      field_simp
    rw [h, Rat.den_intCast]
  · have h : round2 q - q = (((round (q * 100) : ℤ) : ℚ) - q * 100) / 100 := by
      rw [round2]
      ring
    have h2 := abs_sub_round (q * 100)
    rw [abs_sub_comm] at h2
    rw [h, abs_div, show |(100 : ℚ)| = 100 by norm_num]
    linarith

theorem take8_length_le (s : String) : (s.take 8).length ≤ 8 := by
  rw [String.take_eq]
  show (s.data.take 8).length ≤ 8
  exact List.length_take_le 8 s.data

/-- C10: every record in the dashboard per-key list identifies its key by
exactly the first 8 characters of the full key (`api_key_id = api_key[:8]`,
so each identifier has at most 8 characters and a full key longer than
8 characters never appears as an identifier), and the reported usage
percentage is the raw percentage rounded to 2 decimal places: an integer
multiple of 1/100 that is within 1/200 of the raw value. -/
theorem api_key_truncated_and_rounded (daily_limit : ℤ)
    (be : Option (List (String × List (String × List (String × Nat)))))
    (api_keys : List String) (r : KeyUsageRecord)
    (hr : r ∈ apiKeyStats daily_limit be api_keys) :
    (∃ k ∈ api_keys, r = keyStat daily_limit be k ∧ r.api_key = k.take 8)
    ∧ r.api_key.length ≤ 8
    ∧ (∀ k ∈ api_keys, 8 < k.length → r.api_key ≠ k)
    ∧ (r.usage_percent * 100).den = 1
    ∧ |r.usage_percent - usagePercentRaw r.calls_24h daily_limit| ≤ 1 / 200 := by
  have hmem : r ∈ api_keys.map (keyStat daily_limit be) := mem_sortByUsageDesc hr
  rcases List.mem_map.mp hmem with ⟨k, hk, hkr⟩
  have htake : r.api_key = k.take 8 := by
    rw [← hkr]
    unfold keyStat
    with_reducible rfl
  have hlen : r.api_key.length ≤ 8 := by rw [htake]; exact take8_length_le k
  refine ⟨⟨k, hk, hkr.symm, htake⟩, hlen, ?_, ?_, ?_⟩
  · intro k2 _ hk2 heq
    rw [heq] at hlen
    omega
  · have : r.usage_percent = round2 (usagePercentRaw r.calls_24h daily_limit) := by
      rw [← hkr]
      unfold keyStat
      with_reducible rfl
    rw [this]
    exact (round2_den_and_close (usagePercentRaw r.calls_24h daily_limit)).1
  · have : r.usage_percent = round2 (usagePercentRaw r.calls_24h daily_limit) := by
      rw [← hkr]
      unfold keyStat
      with_reducible rfl
    rw [this]
    exact (round2_den_and_close (usagePercentRaw r.calls_24h daily_limit)).2

/-- Witness for C10: with the single ten-character key "abcdefghij", the
produced record carries identifier "abcdefgh" and never the full key. -/
theorem api_key_truncated_and_rounded_witness :
    (keyStat 100 none "abcdefghij").api_key = "abcdefgh"
    ∧ (keyStat 100 none "abcdefghij").api_key ≠ "abcdefghij" := by
  have h := api_key_truncated_and_rounded 100 none ["abcdefghij"]
      (keyStat 100 none "abcdefghij")
      (List.mem_singleton.mpr rfl)
  constructor
  · rcases h.1 with ⟨k, hk, _, htake⟩
    rcases List.mem_singleton.mp hk with rfl
    rw [htake]
    rfl
  · exact h.2.2.1 "abcdefghij" (List.mem_singleton.mpr rfl) (by decide)

/-- Parse exactly four decimal digits (the CPython strptime directive `%Y`
matches `\d\d\d\d`). -/
def parse4 : List Char → Option (Nat × List Char)
  | a :: b :: c :: d :: rest =>
    if a.isDigit && b.isDigit && c.isDigit && d.isDigit then
      some (1000 * digitVal a + 100 * digitVal b + 10 * digitVal c + digitVal d, rest)
    else none
  | _ => none

/-- Parse a one- or two-digit strptime field. The CPython patterns
(`%m` is `1[0-2]|0[1-9]|[1-9]`, `%d` is `3[01]|[12]\d|0[1-9]|[1-9]`,
`%H` is `2[0-3]|[0-1]\d|\d`, `%M` is `[0-5]\d|\d`) each consume two digits
exactly when they form a value in the two-digit range `[lo2, hi2]`, and
otherwise fall back to a single digit in the range `[lo1, hi1]`. -/
def parse12 (lo2 hi2 lo1 hi1 : Nat) : List Char → Option (Nat × List Char)
  | [] => none
  | [a] =>
    if a.isDigit && decide (lo1 ≤ digitVal a) && decide (digitVal a ≤ hi1) then
      some (digitVal a, [])
    else none
  | a :: b :: rest =>
    if a.isDigit then
      if b.isDigit then
        if lo2 ≤ 10 * digitVal a + digitVal b ∧ 10 * digitVal a + digitVal b ≤ hi2 then
          some (10 * digitVal a + digitVal b, rest)
        else if lo1 ≤ digitVal a ∧ digitVal a ≤ hi1 then
          some (digitVal a, b :: rest)
        else none
      else if lo1 ≤ digitVal a ∧ digitVal a ≤ hi1 then
        some (digitVal a, b :: rest)
      else none
    else none

/-- Consume one expected literal character of the strptime format string. -/
def expectChar (c : Char) : List Char → Option (List Char)
  | x :: rest => if x = c then some rest else none
  | [] => none

/-- Gregorian leap-year rule, as used by `datetime` to validate day-of-month. -/
def isLeapYear (y : Nat) : Bool := (y % 4 == 0 && y % 100 != 0) || y % 400 == 0

/-- Number of days of month `m` in year `y` (`datetime` rejects a parsed day
beyond this with `ValueError: day is out of range for month`). -/
def daysInMonth (y m : Nat) : Nat :=
  if m = 2 then (if isLeapYear y then 29 else 28)
  else if m = 4 ∨ m = 6 ∨ m = 9 ∨ m = 11 then 30
  else 31

/-- Encoding of a calendar timestamp as one natural number, monotone in the
lexicographic (year, month, day, hour, minute) order that `datetime`
comparison implements (after validation, `m - 1 < 12`, `d - 1 < 31`,
`h < 24`, `mi < 60`, so the mixed-radix encoding preserves the order). -/
def encodeDT (y m d h mi : Nat) : Nat :=
  (((y * 12 + (m - 1)) * 31 + (d - 1)) * 24 + h) * 60 + mi

/-- `datetime.strptime(hour_key, '%Y-%m-%d %H:00')` followed by the
`datetime` constructor's validation: `none` wherever CPython raises
`ValueError` (pattern mismatch, unconverted trailing data, year 0, or a day
out of range for the month), otherwise the encoded bucket time. -/
def parseHourKey (s : String) : Option Nat := do
  let (y, r1) ← parse4 s.data
  let r2 ← expectChar '-' r1
  let (m, r3) ← parse12 1 12 1 9 r2
  let r4 ← expectChar '-' r3
  let (d, r5) ← parse12 1 31 1 9 r4
  let r6 ← expectChar ' ' r5
  let (h, r7) ← parse12 0 23 0 9 r6
  let r8 ← expectChar ':' r7
  let r9 ← expectChar '0' r8
  let r10 ← expectChar '0' r9
  match r10 with
  | [] => if 1 ≤ y ∧ d ≤ daysInMonth y m then some (encodeDT y m d h 0) else none
  | _ => none

/-- `datetime.strptime(minute_key, '%Y-%m-%d %H:%M')` followed by the
`datetime` constructor's validation, as in `parseHourKey`. -/
def parseMinuteKey (s : String) : Option Nat := do
  let (y, r1) ← parse4 s.data
  let r2 ← expectChar '-' r1
  let (m, r3) ← parse12 1 12 1 9 r2
  let r4 ← expectChar '-' r3
  let (d, r5) ← parse12 1 31 1 9 r4
  let r6 ← expectChar ' ' r5
  let (h, r7) ← parse12 0 23 0 9 r6
  let r8 ← expectChar ':' r7
  let (mi, r9) ← parse12 0 59 0 9 r8
  match r9 with
  | [] => if 1 ≤ y ∧ d ≤ daysInMonth y m then some (encodeDT y m d h mi) else none
  | _ => none

/-- The hourly loop of `get_dashboard_data` (lines 66-74): walk
`settings.api_call_stats['hourly']['total'].items()`, parse each bucket label,
skip labels whose parse fails (`except ValueError: continue`), and accumulate
the counts of buckets at or after `one_hour_ago`. -/
def hourlyCalls (total : List (String × Nat)) (one_hour_ago : Nat) : Nat :=
  total.foldl (fun acc b =>
    match parseHourKey b.1 with
    | some t => if one_hour_ago ≤ t then acc + b.2 else acc
    | none => acc) 0

/-- The per-minute loop of `get_dashboard_data` (lines 77-86), identical in
shape to the hourly loop but with the `'%Y-%m-%d %H:%M'` format. -/
def minuteCalls (total : List (String × Nat)) (one_minute_ago : Nat) : Nat :=
  total.foldl (fun acc b =>
    match parseMinuteKey b.1 with
    | some t => if one_minute_ago ≤ t then acc + b.2 else acc
    | none => acc) 0

/-- Specification-side description of the window sums (`query_total`): the sum
of exactly those buckets whose parsed bucket time is at or after the window
start, buckets with unparseable labels contributing nothing. -/
def specWindowSum (parse : String → Option Nat) (total : List (String × Nat))
    (since : Nat) : Nat :=
  ((total.filter (fun b =>
      match parse b.1 with
      | some t => decide (since ≤ t)
      | none => false)).map Prod.snd).sum

theorem foldl_window_sum (parse : String → Option Nat) (since : Nat) :
    ∀ (total : List (String × Nat)) (acc : Nat),
      total.foldl (fun acc b =>
        match parse b.1 with
        | some t => if since ≤ t then acc + b.2 else acc
        | none => acc) acc
      = acc + specWindowSum parse total since
  | [], acc => by simp [specWindowSum]
  | b :: bs, acc => by
    rw [List.foldl_cons]
    cases hp : parse b.1 with
    | none =>
      dsimp only
      rw [foldl_window_sum parse since bs acc]
      simp [specWindowSum, List.filter_cons, hp]
    | some t =>
      dsimp only
      by_cases ht : since ≤ t
      · rw [if_pos ht, foldl_window_sum parse since bs (acc + b.2)]
        simp [specWindowSum, List.filter_cons, hp, ht]
        omega
      · rw [if_neg ht, foldl_window_sum parse since bs acc]
        simp [specWindowSum, List.filter_cons, hp, ht]

/-- C3: the hourly and per-minute call totals sum exactly the buckets of the
corresponding total mapping whose parsed bucket time is at or after the
window start, every bucket whose label fails to parse is skipped (the
embedded loops are total functions, so a malformed label never crashes the
read); concretely, a malformed label parses to none and contributes nothing
while a well-formed one in the window is counted. -/
theorem window_sums_match_spec (total : List (String × Nat)) (since : Nat) :
    hourlyCalls total since = specWindowSum parseHourKey total since
    ∧ minuteCalls total since = specWindowSum parseMinuteKey total since
    ∧ parseHourKey "not a timestamp" = none
    ∧ parseMinuteKey "2024-02-30 10:15" = none
    ∧ hourlyCalls [("not a timestamp", 7), ("2024-05-06 11:00", 3)] 0 = 3 := by
  refine ⟨?_, ?_, by decide, by decide, by decide⟩
  · rw [hourlyCalls, foldl_window_sum parseHourKey since total 0]
    omega
  · rw [minuteCalls, foldl_window_sum parseMinuteKey since total 0]
    omega

/-- One entry of `response_cache_manager.cache` as the dashboard reads it:
`data.get('expiry_time', 0)` (the key may be absent, hence `Option`, with
default 0) and `data.get('response', {}).model` (a model tag that may be
`None`). `time.time()` values are embedded as `ℚ`. -/
structure CacheEntry where
  expiry_time : Option ℚ
  response_model : Option String
deriving DecidableEq

/-- `time.time() < data.get('expiry_time', 0)`: the entry counts as valid. -/
def isValidEntry (now : ℚ) (e : CacheEntry) : Bool := now < e.expiry_time.getD 0

/-- The truthy model tag of an entry (`model = cache_data.get('response', {}).model`
followed by `if model:`): `None` and the empty string are falsy and yield no
key for `cache_by_model`. -/
def modelKey (e : CacheEntry) : Option String :=
  match e.response_model with
  | none => none
  | some m => if m = "" then none else some m

/-- `cache_by_model[model] += 1` (or `= 1` for a fresh key) on a Python dict
embedded as an association list in insertion order. -/
def bump (al : List (String × Nat)) (m : String) : List (String × Nat) :=
  match al with
  | [] => [(m, 1)]
  | (k, v) :: rest => if k = m then (k, v + 1) :: rest else (k, v) :: bump rest m

/-- The cache-analysis loop of `get_dashboard_data` (lines 130-138): for each
cache entry that is still valid, read its model tag and, when truthy,
increment `cache_by_model[model]`. -/
def cacheByModel (now : ℚ) (cache : List (String × CacheEntry)) :
    List (String × Nat) :=
  cache.foldl (fun al c =>
    if isValidEntry now c.2 then
      match modelKey c.2 with
      | some m => bump al m
      | none => al
    else al) []

/-- The cache statistics assembled by `get_dashboard_data` (lines 123-138 and
the `expired_cache` field of the returned dict): total entry count, count of
still-valid entries, `expired_cache = total_cache - valid_cache`, and the
per-model breakdown of valid entries. The computation only folds over the
cache and returns fresh values, leaving the cache itself untouched. -/
def cacheStats (now : ℚ) (cache : List (String × CacheEntry)) :
    Nat × Nat × Nat × List (String × Nat) :=
  let total_cache := cache.length
  let valid_cache := cache.countP (fun c => isValidEntry now c.2)
  (total_cache, valid_cache, total_cache - valid_cache, cacheByModel now cache)

/-- `cache_by_model.get(m, 0)`: the count recorded for model `m`. -/
def lookupCount (al : List (String × Nat)) (m : String) : Nat :=
  (al.lookup m).getD 0

theorem lookupCount_bump_self (m : String) :
    ∀ al, lookupCount (bump al m) m = lookupCount al m + 1
  | [] => by simp [bump, lookupCount, List.lookup]
  | (k, v) :: rest => by
    by_cases hk : k = m
    · subst hk
      simp [bump, lookupCount, List.lookup]
    · rw [bump, if_neg hk]
      have hne : (m == k) = false := by
        simp [beq_iff_eq]
        exact fun h => hk h.symm
      simp [lookupCount, List.lookup, hne]
      exact lookupCount_bump_self m rest

theorem lookupCount_bump_other {m m2 : String} (h : m2 ≠ m) :
    ∀ al, lookupCount (bump al m) m2 = lookupCount al m2
  | [] => by
    have hne : (m2 == m) = false := by simpa [beq_iff_eq] using h
    simp [bump, lookupCount, List.lookup, hne]
  | (k, v) :: rest => by
    by_cases hk : k = m
    · subst hk
      have hne : (m2 == k) = false := by simpa [beq_iff_eq] using h
      simp [bump, lookupCount, List.lookup, hne]
    · rw [bump, if_neg hk]
      by_cases hk2 : m2 = k
      · subst hk2
        simp [lookupCount, List.lookup]
      · have hne : (m2 == k) = false := by simpa [beq_iff_eq] using hk2
        simp [lookupCount, List.lookup, hne]
        exact lookupCount_bump_other h rest

theorem cacheByModel_count (now : ℚ) (m : String) :
    ∀ (cache : List (String × CacheEntry)) (al : List (String × Nat)),
      lookupCount (cache.foldl (fun al c =>
          if isValidEntry now c.2 then
            match modelKey c.2 with
            | some m2 => bump al m2
            | none => al
          else al) al) m
        = lookupCount al m
          + cache.countP (fun c => isValidEntry now c.2 && (modelKey c.2 == some m))
  | [], al => by simp
  | c :: cs, al => by
    rw [List.foldl_cons, List.countP_cons]
    by_cases hv : isValidEntry now c.2
    · rw [if_pos hv]
      cases hm : modelKey c.2 with
      | none =>
        dsimp only
        rw [cacheByModel_count now m cs al]
        simp [hv, hm]
      | some m2 =>
        dsimp only
        by_cases hmm : m2 = m
        · rw [hmm, cacheByModel_count now m cs (bump al m),
            lookupCount_bump_self m al]
          simp [hv, hm, hmm]
          omega
        · rw [cacheByModel_count now m cs (bump al m2),
            lookupCount_bump_other (fun h => hmm h.symm) al]
          have : ((some m2 == some m) : Bool) = false := by
            simpa using hmm
          simp [hv, hm, this]
    · rw [if_neg hv]
      rw [cacheByModel_count now m cs al]
      have : isValidEntry now c.2 = false := by
        simpa using hv
      simp [this]

/-- C8: the dashboard cache statistics report the total entry count, the
count of entries still valid (`now < expiry_time`), the expired count as
total minus valid, and a per-model breakdown in which each model's recorded
count is the number of valid entries carrying that (truthy) model tag — so
expired entries are never counted in the breakdown; the computation is a
pure fold over the cache and returns fresh values without mutating it. -/
theorem cache_stats_correct (now : ℚ) (cache : List (String × CacheEntry)) :
    (cacheStats now cache).1 = cache.length
    ∧ (cacheStats now cache).2.1
        = cache.countP (fun c => isValidEntry now c.2)
    ∧ (cacheStats now cache).2.1 ≤ (cacheStats now cache).1
    ∧ (cacheStats now cache).2.2.1
        = (cacheStats now cache).1 - (cacheStats now cache).2.1
    ∧ ∀ m2 : String, lookupCount (cacheStats now cache).2.2.2 m2
        = cache.countP (fun c => isValidEntry now c.2 && (modelKey c.2 == some m2)) := by
  refine ⟨rfl, rfl, List.countP_le_length _, rfl, ?_⟩
  intro m2
  have h := cacheByModel_count now m2 cache []
  have h0 : lookupCount [] m2 = 0 := rfl
  rw [h0, Nat.zero_add] at h
  exact h

/-- The combined mutable stores visible at the reset boundary: the call
statistics, the response cache and the active-request tracker. -/
structure AppState where
  api_call_stats : ApiCallStats
  cache : List (String × CacheEntry)
  active_requests : List (String × ActiveTask)
deriving DecidableEq

/-- A value read from the request-body dict: a JSON string, or any other JSON
value of which the endpoint only observes Python truthiness. -/
inductive PyVal
  | str (s : String)
  | other (truthy : Bool)
deriving DecidableEq

/-- Python truthiness of the password value (`if not password`): `None` is
handled by the missing-key case, the empty string and falsy non-strings are
falsy here. -/
def PyVal.isTruthy : PyVal → Bool
  | .str s => s ≠ ""
  | .other b => b

/-- The rejections `reset_stats` raises as `HTTPException`s: 400 for a
missing/falsy password, 422 for a non-string password, 401 for a failed
verification. -/
inductive ResetError
  | badRequest
  | unprocessable
  | unauthorized
deriving DecidableEq

/-- Modelled from the spec: `app.utils.maintenance.api_call_stats_clean` is
not part of the visible source; per the specification the reset operation
"atomically clears all three granularities" of the WindowedStatsStore, so it
maps every granularity to empty mappings. -/
def api_call_stats_clean (_s : ApiCallStats) : ApiCallStats :=
  { minute := { total := [], by_endpoint := some [] }
    hourly := { total := [], by_endpoint := some [] }
    last_24h := { total := [], by_endpoint := some [] } }

/-- The `reset_stats` endpoint (lines 203-220 of `dashboard.py`): reads
`password_data.get("password")`, rejects with 400 when the value is missing
or falsy, with 422 when it is truthy but not a string, with 401 when the
credential check fails, and only after successful verification calls
`api_call_stats_clean`. The credential predicate `verify` stands for the
external collaborator `app.utils.auth.verify_password` (which mutates no
state); raising is embedded as returning the error with the unchanged
state. -/
def reset_stats (verify : String → Bool)
    (password_data : List (String × PyVal)) (s : AppState) :
    (ResetError ⊕ String) × AppState :=
  match password_data.lookup "password" with
  | none => (Sum.inl ResetError.badRequest, s)
  | some v =>
    if v.isTruthy = false then (Sum.inl ResetError.badRequest, s)
    else
      match v with
      | .str password =>
        if verify password then
          (Sum.inr "API调用统计数据已重置",
            { s with api_call_stats := api_call_stats_clean s.api_call_stats })
        else (Sum.inl ResetError.unauthorized, s)
      | .other _ => (Sum.inl ResetError.unprocessable, s)

/-- C6: the privileged reset is all-or-nothing with respect to credentials:
whenever no truthy string password passing verification is supplied (the
password is missing, falsy, not a string, or fails the check) the call
returns a rejection and the whole state — in particular the statistics — is
unchanged; when verification succeeds the stats-clearing function is applied
and all three granularities become empty. -/
theorem reset_stats_all_or_nothing (verify : String → Bool)
    (password_data : List (String × PyVal)) (s : AppState) :
    ((∀ p, password_data.lookup "password" = some (PyVal.str p) →
        p ≠ "" → verify p = false) →
      (∃ e, (reset_stats verify password_data s).1 = Sum.inl e)
      ∧ (reset_stats verify password_data s).2 = s)
    ∧ (∀ p, password_data.lookup "password" = some (PyVal.str p) →
        p ≠ "" → verify p = true →
      (reset_stats verify password_data s).1 = Sum.inr "API调用统计数据已重置"
      ∧ (reset_stats verify password_data s).2.api_call_stats
          = api_call_stats_clean s.api_call_stats
      ∧ (reset_stats verify password_data s).2.api_call_stats.minute.total = []
      ∧ (reset_stats verify password_data s).2.api_call_stats.hourly.total = []
      ∧ (reset_stats verify password_data s).2.api_call_stats.last_24h.total
          = []
      ∧ (reset_stats verify password_data s).2.api_call_stats.last_24h.by_endpoint
          = some []) := by
  constructor
  · intro hfail
    cases hl : password_data.lookup "password" with
    | none =>
      refine ⟨⟨ResetError.badRequest, ?_⟩, ?_⟩ <;> simp [reset_stats, hl]
    | some v =>
      cases v with
      | str p =>
        by_cases hp : p = ""
        · subst hp
          refine ⟨⟨ResetError.badRequest, ?_⟩, ?_⟩ <;>
            simp [reset_stats, hl, PyVal.isTruthy]
        · have hv := hfail p hl hp
          refine ⟨⟨ResetError.unauthorized, ?_⟩, ?_⟩ <;>
            simp [reset_stats, hl, PyVal.isTruthy, hp, hv]
      | other b =>
        cases b with
        | false =>
          refine ⟨⟨ResetError.badRequest, ?_⟩, ?_⟩ <;>
            simp [reset_stats, hl, PyVal.isTruthy]
        | true =>
          refine ⟨⟨ResetError.unprocessable, ?_⟩, ?_⟩ <;>
            simp [reset_stats, hl, PyVal.isTruthy]
  · intro p hl hp hv
    refine ⟨?_, ?_, ?_, ?_, ?_, ?_⟩ <;>
      simp [reset_stats, hl, PyVal.isTruthy, hp, hv, api_call_stats_clean]

/-- Witness for C6: with one recorded bucket, the wrong password is rejected
and leaves the state unchanged, while the correct password empties the
24-hour totals. -/
theorem reset_stats_all_or_nothing_witness :
    ((reset_stats (fun p => p == "secret") [("password", PyVal.str "wrong")]
        ⟨⟨⟨[("b", 1)], none⟩, ⟨[("b", 1)], none⟩, ⟨[("b", 1)], none⟩⟩, [], []⟩).2
      = ⟨⟨⟨[("b", 1)], none⟩, ⟨[("b", 1)], none⟩, ⟨[("b", 1)], none⟩⟩, [], []⟩)
    ∧ (∃ e, (reset_stats (fun p => p == "secret")
        [("password", PyVal.str "wrong")]
        ⟨⟨⟨[("b", 1)], none⟩, ⟨[("b", 1)], none⟩, ⟨[("b", 1)], none⟩⟩, [], []⟩).1
      = Sum.inl e)
    ∧ (reset_stats (fun p => p == "secret") [("password", PyVal.str "secret")]
        ⟨⟨⟨[("b", 1)], none⟩, ⟨[("b", 1)], none⟩, ⟨[("b", 1)], none⟩⟩, [],
          []⟩).2.api_call_stats.last_24h.total = [] := by
  have hW := (reset_stats_all_or_nothing (fun p => p == "secret")
      [("password", PyVal.str "wrong")]
      ⟨⟨⟨[("b", 1)], none⟩, ⟨[("b", 1)], none⟩, ⟨[("b", 1)], none⟩⟩, [], []⟩).1
    (by
      intro p hp hne
      simp [List.lookup] at hp
      rw [← hp]
      rfl)
  have hR := (reset_stats_all_or_nothing (fun p => p == "secret")
      [("password", PyVal.str "secret")]
      ⟨⟨⟨[("b", 1)], none⟩, ⟨[("b", 1)], none⟩, ⟨[("b", 1)], none⟩⟩, [], []⟩).2
    "secret" (by rfl) (by decide) (by rfl)
  exact ⟨hW.2, hW.1, hR.2.2.2.2.1⟩

/-- C7: the privileged reset operation, whether it succeeds or is rejected,
never mutates the response cache or the active-request tracker: both fields
of the resulting state equal those of the input state on every path. -/
theorem reset_stats_frame (verify : String → Bool)
    (password_data : List (String × PyVal)) (s : AppState) :
    (reset_stats verify password_data s).2.cache = s.cache
    ∧ (reset_stats verify password_data s).2.active_requests
        = s.active_requests := by
  cases hl : password_data.lookup "password" with
  | none => constructor <;> simp [reset_stats, hl]
  | some v =>
    cases v with
    | str p =>
      by_cases hp : p = ""
      · subst hp
        constructor <;> simp [reset_stats, hl, PyVal.isTruthy]
      · by_cases hv : verify p
        · constructor <;> simp [reset_stats, hl, PyVal.isTruthy, hp, hv]
        · constructor <;> simp [reset_stats, hl, PyVal.isTruthy, hp, hv]
    | other b =>
      cases b with
      | false => constructor <;> simp [reset_stats, hl, PyVal.isTruthy]
      | true => constructor <;> simp [reset_stats, hl, PyVal.isTruthy]
